import Mathlib

/-!
Shallow embedding of `src/evenk/bounded_queue.h` (class `evenk::BoundedQueue`).

Machine integers are modelled as `Nat` with explicit reduction modulo
`2^32` (the `std::uint32_t` slot tickets, the queue size and mask) and
modulo `2^64` (the `std::uint64_t` `head_` and `tail_` counters).

The queue is concurrent; we embed the execution of a single enqueue or
dequeue call.  The thread's own writes are applied to an explicit queue
state, while its loads of shared locations that other threads may change
concurrently (the slot ticket re-read by `WaitAndLoad`/`Load` inside the
wait loops, the `finish_` flag and the seq-cst load of `tail_` inside
`WaitHead`) are drawn from an environment oracle `WaitEnv` giving the
value observed at each loop iteration.  Wait loops are fuel-bounded:
`none` models a call that is still blocked after `fuel` iterations.
Memory-ordering annotations (`seq_cst`, `acquire`, `release`, `relaxed`)
have no observable content in this single-thread embedding; they are
recorded in the doc comments of the corresponding definitions.
-/

namespace Evenk

/-- `2^32`, the modulus of `std::uint32_t` arithmetic. -/
def U32LIM : Nat := 4294967296

/-- `2^64`, the modulus of `std::uint64_t` arithmetic. -/
def U64LIM : Nat := 18446744073709551616

/-- Truncation of a value to `std::uint32_t`, as in `std::uint32_t(required_ticket)`. -/
def u32 (n : Nat) : Nat := n % U32LIM

/-- Reduction of `std::uint64_t` arithmetic. -/
def u64 (n : Nat) : Nat := n % U64LIM

/-- One ring cell: the 32-bit atomic `ticket_` of `BoundedQueueSlotBase`
plus the `value` member of `BoundedQueue::Slot`.  The wait-strategy
internals (futex waiter count, mutex, condition variable) carry no state
that the verified claims mention and are not modelled. -/
structure Slot (α : Type) where
  ticket : Nat
  value : α
deriving DecidableEq

/-- The fields of `BoundedQueue`: `ring_` (the slot array), `mask_`
(`size - 1`, a `std::uint32_t`), the `finish_` flag and the 64-bit
`head_` and `tail_` counters. -/
structure BoundedQueue (α : Type) where
  ring : List (Slot α)
  mask : Nat
  finish : Bool
  head : Nat
  tail : Nat
deriving DecidableEq

/-- Environment oracle for one enqueue or dequeue call: the values this
thread observes on its successive loads of shared locations while other
threads run concurrently.  `ticket0` is the initial `slot.Load()`;
`ticketNext k` is the ticket returned by the load at the end of loop
iteration `k` (`WaitAndLoad` or the plain `Load` of the backoff loops);
`finishObs k` is the `Finished()` observation and `tailObs k` the
seq-cst `tail_` load made during iteration `k` of `WaitHead`. -/
structure WaitEnv where
  ticket0 : Nat
  ticketNext : Nat → Nat
  finishObs : Nat → Bool
  tailObs : Nat → Nat

/-- The loop test of every wait loop: the source compares the observed
32-bit ticket with the 64-bit reservation truncated to `std::uint32_t`,
`current_ticket != std::uint32_t(required_ticket)` (negated here: `true`
means the loop exits). -/
def ticketMatches (current required : Nat) : Bool :=
  current == u32 required

/-- `BoundedQueue::WaitTail` (no backoff): loop while the observed ticket
differs from the low 32 bits of the required 64-bit ticket, re-loading
through `WaitAndLoad`.  `k` is the iteration index into the environment,
`cur` the currently observed ticket; `none` means the producer is still
blocked when the fuel runs out. -/
def waitTail (required : Nat) (env : WaitEnv) : Nat → Nat → Nat → Option Unit
  | 0, _, _ => none
  | fuel + 1, k, cur =>
    if ticketMatches cur required then some ()
    else waitTail required env fuel (k + 1) (env.ticketNext k)

/-- `BoundedQueue::WaitHead` (no backoff): like `waitTail` but each
iteration first checks `Finished()` and, if set, performs a seq-cst load
of `tail_` and returns `false` when `required_ticket >= tail` (note:
`required_ticket` here is the 64-bit value `head + 1` passed by
`Dequeue`).  Returns `some true` on ticket match, `some false` on the
shutdown abort, `none` when still blocked after `fuel` iterations. -/
def waitHead (required : Nat) (env : WaitEnv) : Nat → Nat → Nat → Option Bool
  | 0, _, _ => none
  | fuel + 1, k, cur =>
    if ticketMatches cur required then some true
    else if env.finishObs k = true ∧ env.tailObs k ≤ required then some false
    else waitHead required env fuel (k + 1) (env.ticketNext k)

/-- `BoundedQueue::WakeHead`: `slot.StoreAndWake(new_ticket)` with a
`std::uint32_t` parameter, so the stored ticket is the low 32 bits of
the argument.  The wake side effect changes no modelled state. -/
def wakeHead (slot : Slot α) (newTicket : Nat) : Slot α :=
  { slot with ticket := u32 newTicket }

/-- `BoundedQueue::WakeTail`: identical to `WakeHead` in effect. -/
def wakeTail (slot : Slot α) (newTicket : Nat) : Slot α :=
  { slot with ticket := u32 newTicket }

/-- `BoundedQueue::Enqueue` (both the move and the copy overload have the
same effect on the modelled state): fetch-add `tail_` (seq-cst) to get
the 64-bit reservation `t`, pick `ring_[t & mask_]`, run `WaitTail`,
move/copy `value` into the slot, then `WakeHead(slot, t + 1)`.  Returns
the reservation and the updated state, or `none` if the wait loop is
still blocked (or `t & mask_` is outside the ring, which cannot happen
for a constructed queue). -/
def Enqueue (q : BoundedQueue α) (v : α) (env : WaitEnv) (fuel : Nat) :
    Option (Nat × BoundedQueue α) :=
  let t := q.tail
  let idx := t &&& q.mask
  match waitTail t env fuel 0 env.ticket0 with
  | none => none
  | some _ =>
    match q.ring[idx]? with
    | none => none
    | some slot =>
      some (t, { q with
        tail := u64 (q.tail + 1),
        ring := q.ring.set idx (wakeHead { slot with value := v } (u64 (t + 1))) })

/-- Result of a `Dequeue` call that returned: `success v q` models
`return true` with `value = v` moved out and final state `q`; `aborted q`
models the shutdown path `return false`. -/
inductive DeqResult (α : Type) where
  | success (v : α) (q : BoundedQueue α)
  | aborted (q : BoundedQueue α)
deriving DecidableEq

/-- The final queue state of a `DeqResult`. -/
def DeqResult.state : DeqResult α → BoundedQueue α
  | .success _ q => q
  | .aborted q => q

/-- `BoundedQueue::Dequeue`: fetch-add `head_` (relaxed) to get the
64-bit reservation `h`, pick `ring_[h & mask_]`, run
`WaitHead(slot, h + 1)`; on abort return `false` having written nothing
to the slot; on success move `slot.value` out (the slot keeps its
moved-from object) and `WakeTail(slot, h + mask_ + 1)`.  Returns the
reservation and the outcome, or `none` if still blocked. -/
def Dequeue (q : BoundedQueue α) (env : WaitEnv) (fuel : Nat) :
    Option (Nat × DeqResult α) :=
  let h := q.head
  let idx := h &&& q.mask
  match waitHead (u64 (h + 1)) env fuel 0 env.ticket0 with
  | none => none
  | some false => some (h, .aborted { q with head := u64 (q.head + 1) })
  | some true =>
    match q.ring[idx]? with
    | none => none
    | some slot =>
      some (h, .success slot.value { q with
        head := u64 (q.head + 1),
        ring := q.ring.set idx (wakeTail slot (u64 (h + q.mask + 1))) })

/-- `BoundedQueue::Finished`: relaxed load of `finish_`. -/
def Finished (q : BoundedQueue α) : Bool :=
  q.finish

/-- The visible steps of `BoundedQueue::Finish`: the relaxed store of
`finish_` and the `Wake()` call on each slot index. -/
inductive FinishAction where
  | setFlag
  | wakeSlot (i : Nat)
deriving DecidableEq

/-- `BoundedQueue::Finish`: store `true` to `finish_`, then call
`ring_[i].Wake()` for `i = 0 .. mask_` (the bound `mask_ + 1` is
computed in `std::uint32_t`).  Returns the new state together with the
ordered list of actions performed. -/
def Finish (q : BoundedQueue α) : BoundedQueue α × List FinishAction :=
  ({ q with finish := true },
   .setFlag :: (List.range (u32 (q.mask + 1))).map .wakeSlot)

/-- The two exceptions the constructor can throw:
`std::invalid_argument` and `std::bad_alloc`. -/
inductive CtorError where
  | invalidArgument
  | badAlloc
deriving DecidableEq

/-- The constructor `BoundedQueue(std::uint32_t size)`.  `mask_` is
initialized to `size - 1` in `std::uint32_t` arithmetic; then the check
`size == 0 || (size & mask_) != 0` throws `std::invalid_argument`; then
`posix_memalign` may fail (modelled by the oracle `allocOk`), throwing
`std::bad_alloc`; otherwise `new (ring) Slot[size]` default-constructs
each slot value (`dflt`) and `ring_[i].Initialize(i)` sets slot `i`'s
ticket to `i`. -/
def mkBoundedQueue (dflt : α) (size : Nat) (allocOk : Bool) :
    Except CtorError (BoundedQueue α) :=
  let mask := u32 (size + (U32LIM - 1))
  if size = 0 ∨ size &&& mask ≠ 0 then .error .invalidArgument
  else if allocOk = false then .error .badAlloc
  else .ok
    { ring := (List.range size).map (fun i => { ticket := i, value := dflt })
      mask := mask
      finish := false
      head := 0
      tail := 0 }

/-- `n` is a power of two (the spec's validity condition on the capacity). -/
def IsPow2 (n : Nat) : Prop :=
  ∃ k, n = 2 ^ k

/-- The two kinds of loop iteration of the backoff overloads of
`WaitTail`/`WaitHead`: an iteration that invokes the backoff callable
followed by a plain `Load()`, or one that calls `WaitAndLoad`. -/
inductive WaitAction where
  | backoffStep
  | blockingWait
deriving DecidableEq

/-- The backoff overload of `BoundedQueue::WaitTail`.  The stateful
backoff callable is abstracted by the stream `bo` of its successive
return values; `j` counts backoff invocations made so far, `waiting` is
the local flag (initially `false`).  While `waiting` is false each
iteration invokes the backoff and then a plain `Load()`; once a backoff
call returns `true`, `waiting` stays `true` and every later iteration
calls `WaitAndLoad`.  Returns the list of iteration kinds in order, or
`none` when the fuel runs out. -/
def waitTailB (required : Nat) (env : WaitEnv) (bo : Nat → Bool) :
    Nat → Nat → Nat → Nat → Bool → Option (List WaitAction)
  | 0, _, _, _, _ => none
  | fuel + 1, k, j, cur, waiting =>
    if ticketMatches cur required then some []
    else if waiting then
      (waitTailB required env bo fuel (k + 1) j (env.ticketNext k) true).map
        (WaitAction.blockingWait :: ·)
    else
      (waitTailB required env bo fuel (k + 1) (j + 1) (env.ticketNext k) (bo j)).map
        (WaitAction.backoffStep :: ·)

/-- The backoff overload of `BoundedQueue::WaitHead`: as `waitTailB`,
with the shutdown check of `waitHead` performed at the start of each
iteration before the `waiting` test. -/
def waitHeadB (required : Nat) (env : WaitEnv) (bo : Nat → Bool) :
    Nat → Nat → Nat → Nat → Bool → Option (Bool × List WaitAction)
  | 0, _, _, _, _ => none
  | fuel + 1, k, j, cur, waiting =>
    if ticketMatches cur required then some (true, [])
    else if env.finishObs k = true ∧ env.tailObs k ≤ required then some (false, [])
    else if waiting then
      (waitHeadB required env bo fuel (k + 1) j (env.ticketNext k) true).map
        (fun r => (r.1, WaitAction.blockingWait :: r.2))
    else
      (waitHeadB required env bo fuel (k + 1) (j + 1) (env.ticketNext k) (bo j)).map
        (fun r => (r.1, WaitAction.backoffStep :: r.2))

/-- A `BoundedQueue` object including the possibility that `ring_` is
the null pointer, as it is for a moved-from instance. -/
structure QueueRepr (α : Type) where
  ring : Option (List (Slot α))
  mask : Nat
  finish : Bool
  head : Nat
  tail : Nat
deriving DecidableEq

/-- The move constructor `BoundedQueue(BoundedQueue &&other)`: the new
object takes `other.ring_` and `other.mask_` but initializes
`finish_{false}, head_{0}, tail_{0}`; the only change to `other` is
`other.ring_ = nullptr`.  Returns (moved-to, moved-from). -/
def moveCtor (other : QueueRepr α) : QueueRepr α × QueueRepr α :=
  ({ ring := other.ring, mask := other.mask, finish := false, head := 0, tail := 0 },
   { other with ring := none })

/-- The teardown steps of `BoundedQueue::Destroy`: the explicit
destructor call on slot `i`, and the `std::free` of the ring storage. -/
inductive DestroyAction where
  | slotDtor (i : Nat)
  | freeMem
deriving DecidableEq

/-- `BoundedQueue::Destroy` (called by the destructor): when `ring_` is
null it does nothing; otherwise it destroys slots `0 .. mask_` (the
count `mask_ + 1` computed in `std::uint32_t`) and frees the storage. -/
def destroyActions (q : QueueRepr α) : List DestroyAction :=
  match q.ring with
  | none => []
  | some _ => (List.range (u32 (q.mask + 1))).map .slotDtor ++ [.freeMem]

/-! ### Concrete sample states and environments

Used to instantiate the hypotheses of the claim theorems on concrete
runs. -/

/-- A capacity-1 queue in its initial state (slot empty, ticket 0). -/
def sampleEmptyQ : BoundedQueue Nat :=
  { ring := [{ ticket := 0, value := 0 }], mask := 0, finish := false, head := 0, tail := 0 }

/-- The state of `sampleEmptyQ` after `Enqueue 7` with reservation 0. -/
def sampleEnqResultQ : BoundedQueue Nat :=
  { ring := [{ ticket := 1, value := 7 }], mask := 0, finish := false, head := 0, tail := 1 }

/-- A capacity-1 queue holding one value (slot full, ticket 1). -/
def sampleFullQ : BoundedQueue Nat :=
  { ring := [{ ticket := 1, value := 42 }], mask := 0, finish := false, head := 0, tail := 1 }

/-- The state of `sampleFullQ` after a successful `Dequeue`. -/
def sampleDeqSuccQ : BoundedQueue Nat :=
  { ring := [{ ticket := 1, value := 42 }], mask := 0, finish := false, head := 1, tail := 1 }

/-- A capacity-1 queue with the finish flag raised and no pending value. -/
def sampleFinishQ : BoundedQueue Nat :=
  { ring := [{ ticket := 0, value := 5 }], mask := 0, finish := true, head := 0, tail := 0 }

/-- The state of `sampleFinishQ` after an aborted `Dequeue`. -/
def sampleAbortQ : BoundedQueue Nat :=
  { ring := [{ ticket := 0, value := 5 }], mask := 0, finish := true, head := 1, tail := 0 }

/-- A capacity-2 queue in its initial state. -/
def sampleTwoSlotQ : BoundedQueue Nat :=
  { ring := [{ ticket := 0, value := 0 }, { ticket := 1, value := 0 }],
    mask := 1, finish := false, head := 0, tail := 0 }

/-- Environment whose ticket observations are always 0 and which never
observes the finish flag. -/
def sampleEnvMatch0 : WaitEnv :=
  { ticket0 := 0, ticketNext := fun _ => 0, finishObs := fun _ => false, tailObs := fun _ => 0 }

/-- Environment whose ticket observations are always 1 and which never
observes the finish flag. -/
def sampleEnvMatch1 : WaitEnv :=
  { ticket0 := 1, ticketNext := fun _ => 1, finishObs := fun _ => false, tailObs := fun _ => 0 }

/-- Environment that observes the finish flag set and `tail = 0` on
every iteration. -/
def sampleEnvAbort : WaitEnv :=
  { ticket0 := 0, ticketNext := fun _ => 0, finishObs := fun _ => true, tailObs := fun _ => 0 }

/-- Environment whose re-loads observe ticket 5 from iteration 1 on. -/
def sampleEnvEsc : WaitEnv :=
  { ticket0 := 0, ticketNext := fun k => if 1 ≤ k then 5 else 0,
    finishObs := fun _ => false, tailObs := fun _ => 0 }

/-- Environment whose re-loads always observe ticket 5. -/
def sampleEnvTick5 : WaitEnv :=
  { ticket0 := 0, ticketNext := fun _ => 5, finishObs := fun _ => false, tailObs := fun _ => 0 }

/-- A live queue object holding an undequeued value and a raised finish
flag, about to be moved from. -/
def sampleRepr : QueueRepr Nat :=
  { ring := some [{ ticket := 3, value := 9 }], mask := 0, finish := true, head := 2, tail := 3 }

/-! ### Helper lemmas -/

theorem exists_testBit_of_ne_zero {m : Nat} (hm : m ≠ 0) : ∃ i, m.testBit i = true := by
  by_contra hno
  push_neg at hno
  refine hm (Nat.eq_of_testBit_eq fun i => ?_)
  simp [Bool.eq_false_iff.mpr (hno i)]

/-- The constructor's bit test characterizes powers of two: for positive
`n`, `n & (n - 1) == 0` iff `n` is a power of two. -/
theorem land_pred_eq_zero_iff {n : Nat} (hn : 0 < n) :
    n &&& (n - 1) = 0 ↔ IsPow2 n := by
  induction n using Nat.strong_induction_on with
  | _ n ih =>
    constructor
    · intro hland
      rcases Nat.lt_or_ge n 2 with h2 | h2
      · have h1 : n = 1 := by omega
        exact ⟨0, by omega⟩
      · rcases Nat.mod_two_eq_zero_or_one n with he | ho
        · -- n = 2 * m with m ≥ 1
          have hdiv : (n - 1) / 2 = n / 2 - 1 := by omega
          have hsub : n / 2 &&& (n / 2 - 1) = 0 := by
            refine Nat.eq_of_testBit_eq fun i => ?_
            have ht : (n &&& (n - 1)).testBit (i + 1) = false := by
              rw [hland]
              exact Nat.zero_testBit _
            rw [Nat.testBit_and, Nat.testBit_add_one, Nat.testBit_add_one, hdiv] at ht
            simpa [Nat.testBit_and] using ht
          obtain ⟨k, hk⟩ := (ih (n / 2) (by omega) (by omega)).mp hsub
          exact ⟨k + 1, by omega⟩
        · -- n odd, n ≥ 3: contradiction with the land hypothesis
          exfalso
          have hm : n / 2 ≠ 0 := by omega
          obtain ⟨i, hi⟩ := exists_testBit_of_ne_zero hm
          have hdiv : (n - 1) / 2 = n / 2 := by omega
          have ht : (n &&& (n - 1)).testBit (i + 1) = false := by
            rw [hland]
            exact Nat.zero_testBit _
          rw [Nat.testBit_and, Nat.testBit_add_one, Nat.testBit_add_one, hdiv, hi] at ht
          simp at ht
    · rintro ⟨k, rfl⟩
      refine Nat.eq_of_testBit_eq fun i => ?_
      rcases eq_or_ne k i with rfl | hne
      · simp [Nat.testBit_and, Nat.testBit_two_pow_sub_one]
      · simp [Nat.testBit_and, Nat.testBit_two_pow_of_ne hne]

/-- The `std::uint32_t` expression `size - 1` for `0 < size < 2^32`. -/
theorem mask_eq_sub_one {size : Nat} (h0 : 0 < size) (h32 : size < U32LIM) :
    u32 (size + (U32LIM - 1)) = size - 1 := by
  simp only [u32, U32LIM] at *
  omega

/-- `waitTail` exits only upon observing a ticket equal to the low 32
bits of the required 64-bit ticket. -/
theorem waitTail_exit_match (required : Nat) (env : WaitEnv) :
    ∀ fuel k cur, waitTail required env fuel k cur = some () →
      cur = u32 required ∨ ∃ j, env.ticketNext j = u32 required := by
  intro fuel
  induction fuel with
  | zero => intro k cur h; simp [waitTail] at h
  | succ n ih =>
    intro k cur h
    rw [waitTail] at h
    by_cases hc : ticketMatches cur required
    · left
      simpa [ticketMatches] using hc
    · rw [if_neg hc] at h
      rcases ih (k + 1) (env.ticketNext k) h with h1 | h1
      · exact Or.inr ⟨k, h1⟩
      · exact Or.inr h1

/-- `waitHead` returns `true` only upon observing a ticket equal to the
low 32 bits of the required 64-bit ticket. -/
theorem waitHead_true_match (required : Nat) (env : WaitEnv) :
    ∀ fuel k cur, waitHead required env fuel k cur = some true →
      cur = u32 required ∨ ∃ j, env.ticketNext j = u32 required := by
  intro fuel
  induction fuel with
  | zero => intro k cur h; simp [waitHead] at h
  | succ n ih =>
    intro k cur h
    rw [waitHead] at h
    by_cases hc : ticketMatches cur required
    · left
      simpa [ticketMatches] using hc
    · rw [if_neg hc] at h
      by_cases hf : env.finishObs k = true ∧ env.tailObs k ≤ required
      · rw [if_pos hf] at h
        exact absurd h (by simp)
      · rw [if_neg hf] at h
        rcases ih (k + 1) (env.ticketNext k) h with h1 | h1
        · exact Or.inr ⟨k, h1⟩
        · exact Or.inr h1

/-- `waitHead` returns `false` only from an iteration that observed the
finish flag set and a `tail_` value with `tail ≤ required_ticket`. -/
theorem waitHead_false_shutdown (required : Nat) (env : WaitEnv) :
    ∀ fuel k cur, waitHead required env fuel k cur = some false →
      ∃ j, env.finishObs j = true ∧ env.tailObs j ≤ required := by
  intro fuel
  induction fuel with
  | zero => intro k cur h; simp [waitHead] at h
  | succ n ih =>
    intro k cur h
    rw [waitHead] at h
    by_cases hc : ticketMatches cur required
    · rw [if_pos hc] at h
      exact absurd h (by simp)
    · rw [if_neg hc] at h
      by_cases hf : env.finishObs k = true ∧ env.tailObs k ≤ required
      · exact ⟨k, hf⟩
      · rw [if_neg hf] at h
        exact ih (k + 1) (env.ticketNext k) h

theorem u32_u64 (n : Nat) : u32 (u64 n) = u32 n := by
  simp only [u32, u64]
  exact Nat.mod_mod_of_dvd n (by norm_num [U32LIM, U64LIM])

theorem wakeTail_u64 (slot : Slot α) (n : Nat) : wakeTail slot (u64 n) = wakeTail slot n := by
  simp [wakeTail, u32_u64]

theorem wakeHead_u64 (slot : Slot α) (n : Nat) : wakeHead slot (u64 n) = wakeHead slot n := by
  simp [wakeHead, u32_u64]

/-- Once `waiting` is `true`, every remaining iteration of the backoff
`WaitTail` loop is a `WaitAndLoad` call. -/
theorem waitTailB_waiting_trace (required : Nat) (env : WaitEnv) (bo : Nat → Bool) :
    ∀ fuel k j cur tr, waitTailB required env bo fuel k j cur true = some tr →
      tr = List.replicate tr.length WaitAction.blockingWait := by
  intro fuel
  induction fuel with
  | zero => intro k j cur tr h; simp [waitTailB] at h
  | succ n ih =>
    intro k j cur tr h
    rw [waitTailB] at h
    by_cases hc : ticketMatches cur required
    · rw [if_pos hc] at h
      simp only [Option.some.injEq] at h
      simp [← h]
    · rw [if_neg hc, if_pos rfl] at h
      obtain ⟨tr1, h1, h2⟩ := Option.map_eq_some'.mp h
      subst h2
      have := ih (k + 1) j (env.ticketNext k) tr1 h1
      simp [List.replicate_succ, ← this]

/-- The action trace of the backoff `WaitTail` loop is a block of
backoff iterations followed by a block of `WaitAndLoad` iterations. -/
theorem waitTailB_trace_shape (required : Nat) (env : WaitEnv) (bo : Nat → Bool) :
    ∀ fuel k j cur waiting tr, waitTailB required env bo fuel k j cur waiting = some tr →
      ∃ a b, tr = List.replicate a WaitAction.backoffStep ++
        List.replicate b WaitAction.blockingWait := by
  intro fuel
  induction fuel with
  | zero => intro k j cur waiting tr h; simp [waitTailB] at h
  | succ n ih =>
    intro k j cur waiting tr h
    rw [waitTailB] at h
    by_cases hc : ticketMatches cur required
    · rw [if_pos hc] at h
      simp only [Option.some.injEq] at h
      exact ⟨0, 0, by simp [← h]⟩
    · rw [if_neg hc] at h
      cases waiting with
      | true =>
        rw [if_pos rfl] at h
        obtain ⟨tr1, h1, h2⟩ := Option.map_eq_some'.mp h
        subst h2
        have := waitTailB_waiting_trace required env bo n (k + 1) j (env.ticketNext k) tr1 h1
        exact ⟨0, tr1.length + 1, by simp [List.replicate_succ, ← this]⟩
      | false =>
        rw [if_neg (by simp)] at h
        obtain ⟨tr1, h1, h2⟩ := Option.map_eq_some'.mp h
        subst h2
        obtain ⟨a, b, hab⟩ := ih (k + 1) (j + 1) (env.ticketNext k) (bo j) tr1 h1
        exact ⟨a + 1, b, by simp [List.replicate_succ, hab]⟩

/-- While every backoff call keeps returning `false`, the backoff
`WaitTail` loop never calls `WaitAndLoad`. -/
theorem waitTailB_all_backoff (required : Nat) (env : WaitEnv) (bo : Nat → Bool)
    (hbo : ∀ i, bo i = false) :
    ∀ fuel k j cur tr, waitTailB required env bo fuel k j cur false = some tr →
      tr = List.replicate tr.length WaitAction.backoffStep := by
  intro fuel
  induction fuel with
  | zero => intro k j cur tr h; simp [waitTailB] at h
  | succ n ih =>
    intro k j cur tr h
    rw [waitTailB] at h
    by_cases hc : ticketMatches cur required
    · rw [if_pos hc] at h
      simp only [Option.some.injEq] at h
      simp [← h]
    · rw [if_neg hc, if_neg (by simp)] at h
      rw [hbo j] at h
      obtain ⟨tr1, h1, h2⟩ := Option.map_eq_some'.mp h
      subst h2
      have := ih (k + 1) (j + 1) (env.ticketNext k) tr1 h1
      simp [List.replicate_succ, ← this]

/-- Once `waiting` is `true`, every remaining iteration of the backoff
`WaitHead` loop is a `WaitAndLoad` call. -/
theorem waitHeadB_waiting_trace (required : Nat) (env : WaitEnv) (bo : Nat → Bool) :
    ∀ fuel k j cur res tr, waitHeadB required env bo fuel k j cur true = some (res, tr) →
      tr = List.replicate tr.length WaitAction.blockingWait := by
  intro fuel
  induction fuel with
  | zero => intro k j cur res tr h; simp [waitHeadB] at h
  | succ n ih =>
    intro k j cur res tr h
    rw [waitHeadB] at h
    by_cases hc : ticketMatches cur required
    · rw [if_pos hc] at h
      simp only [Option.some.injEq, Prod.mk.injEq] at h
      simp [← h.2]
    · rw [if_neg hc] at h
      by_cases hf : env.finishObs k = true ∧ env.tailObs k ≤ required
      · rw [if_pos hf] at h
        simp only [Option.some.injEq, Prod.mk.injEq] at h
        simp [← h.2]
      · rw [if_neg hf, if_pos rfl] at h
        obtain ⟨pr, h1, h2⟩ := Option.map_eq_some'.mp h
        obtain ⟨hr, htr⟩ := Prod.mk.injEq .. ▸ h2
        subst hr
        subst htr
        have := ih (k + 1) j (env.ticketNext k) pr.1 pr.2 (by simpa using h1)
        simp [List.replicate_succ, ← this]

/-- The action trace of the backoff `WaitHead` loop is a block of
backoff iterations followed by a block of `WaitAndLoad` iterations. -/
theorem waitHeadB_trace_shape (required : Nat) (env : WaitEnv) (bo : Nat → Bool) :
    ∀ fuel k j cur waiting res tr,
      waitHeadB required env bo fuel k j cur waiting = some (res, tr) →
      ∃ a b, tr = List.replicate a WaitAction.backoffStep ++
        List.replicate b WaitAction.blockingWait := by
  intro fuel
  induction fuel with
  | zero => intro k j cur waiting res tr h; simp [waitHeadB] at h
  | succ n ih =>
    intro k j cur waiting res tr h
    rw [waitHeadB] at h
    by_cases hc : ticketMatches cur required
    · rw [if_pos hc] at h
      simp only [Option.some.injEq, Prod.mk.injEq] at h
      exact ⟨0, 0, by simp [← h.2]⟩
    · rw [if_neg hc] at h
      by_cases hf : env.finishObs k = true ∧ env.tailObs k ≤ required
      · rw [if_pos hf] at h
        simp only [Option.some.injEq, Prod.mk.injEq] at h
        exact ⟨0, 0, by simp [← h.2]⟩
      · rw [if_neg hf] at h
        cases waiting with
        | true =>
          rw [if_pos rfl] at h
          obtain ⟨pr, h1, h2⟩ := Option.map_eq_some'.mp h
          obtain ⟨hr, htr⟩ := Prod.mk.injEq .. ▸ h2
          subst htr
          have := waitHeadB_waiting_trace required env bo n (k + 1) j (env.ticketNext k)
            pr.1 pr.2 (by simpa using h1)
          exact ⟨0, pr.2.length + 1, by simp [List.replicate_succ, ← this]⟩
        | false =>
          rw [if_neg (by simp)] at h
          obtain ⟨pr, h1, h2⟩ := Option.map_eq_some'.mp h
          obtain ⟨hr, htr⟩ := Prod.mk.injEq .. ▸ h2
          subst htr
          obtain ⟨a, b, hab⟩ := ih (k + 1) (j + 1) (env.ticketNext k) (bo j)
            pr.1 pr.2 (by simpa using h1)
          exact ⟨a + 1, b, by simp [List.replicate_succ, hab]⟩

/-- While every backoff call keeps returning `false`, the backoff
`WaitHead` loop never calls `WaitAndLoad`. -/
theorem waitHeadB_all_backoff (required : Nat) (env : WaitEnv) (bo : Nat → Bool)
    (hbo : ∀ i, bo i = false) :
    ∀ fuel k j cur res tr, waitHeadB required env bo fuel k j cur false = some (res, tr) →
      tr = List.replicate tr.length WaitAction.backoffStep := by
  intro fuel
  induction fuel with
  | zero => intro k j cur res tr h; simp [waitHeadB] at h
  | succ n ih =>
    intro k j cur res tr h
    rw [waitHeadB] at h
    by_cases hc : ticketMatches cur required
    · rw [if_pos hc] at h
      simp only [Option.some.injEq, Prod.mk.injEq] at h
      simp [← h.2]
    · rw [if_neg hc] at h
      by_cases hf : env.finishObs k = true ∧ env.tailObs k ≤ required
      · rw [if_pos hf] at h
        simp only [Option.some.injEq, Prod.mk.injEq] at h
        simp [← h.2]
      · rw [if_neg hf, if_neg (by simp), hbo j] at h
        obtain ⟨pr, h1, h2⟩ := Option.map_eq_some'.mp h
        obtain ⟨hr, htr⟩ := Prod.mk.injEq .. ▸ h2
        subst htr
        have := ih (k + 1) (j + 1) (env.ticketNext k) pr.1 pr.2 (by simpa using h1)
        simp [List.replicate_succ, ← this]

/-- Characterization of a returning `Enqueue` call. -/
theorem Enqueue_eq_some {q : BoundedQueue α} {v : α} {env : WaitEnv} {fuel t : Nat}
    {q2 : BoundedQueue α} (hrun : Enqueue q v env fuel = some (t, q2)) :
    t = q.tail ∧
    waitTail q.tail env fuel 0 env.ticket0 = some () ∧
    ∃ slot, q.ring[q.tail &&& q.mask]? = some slot ∧
      q2 = { q with
        tail := u64 (q.tail + 1),
        ring := q.ring.set (q.tail &&& q.mask)
          (wakeHead { slot with value := v } (u64 (q.tail + 1))) } := by
  simp only [Enqueue] at hrun
  split at hrun
  · exact absurd hrun (by simp)
  · rename_i u hw
    split at hrun
    · exact absurd hrun (by simp)
    · rename_i slot hs
      simp only [Option.some.injEq, Prod.mk.injEq] at hrun
      obtain ⟨ht, hq⟩ := hrun
      exact ⟨ht.symm, by cases u; exact hw, slot, hs, hq.symm⟩

/-- Characterization of a `Dequeue` call returning `true`. -/
theorem Dequeue_eq_some_success {q : BoundedQueue α} {env : WaitEnv} {fuel h : Nat}
    {v : α} {q2 : BoundedQueue α}
    (hrun : Dequeue q env fuel = some (h, DeqResult.success v q2)) :
    h = q.head ∧
    waitHead (u64 (q.head + 1)) env fuel 0 env.ticket0 = some true ∧
    ∃ slot, q.ring[q.head &&& q.mask]? = some slot ∧ v = slot.value ∧
      q2 = { q with
        head := u64 (q.head + 1),
        ring := q.ring.set (q.head &&& q.mask)
          (wakeTail slot (u64 (q.head + q.mask + 1))) } := by
  simp only [Dequeue] at hrun
  split at hrun
  · exact absurd hrun (by simp)
  · rename_i hw
    exact absurd hrun (by simp)
  · rename_i hw
    split at hrun
    · exact absurd hrun (by simp)
    · rename_i slot hs
      simp only [Option.some.injEq, Prod.mk.injEq, DeqResult.success.injEq] at hrun
      obtain ⟨hh, hv, hq⟩ := hrun
      exact ⟨hh.symm, hw, slot, hs, hv.symm, hq.symm⟩

/-- Characterization of a `Dequeue` call returning `false`. -/
theorem Dequeue_eq_some_aborted {q : BoundedQueue α} {env : WaitEnv} {fuel h : Nat}
    {q2 : BoundedQueue α}
    (hrun : Dequeue q env fuel = some (h, DeqResult.aborted q2)) :
    h = q.head ∧
    waitHead (u64 (q.head + 1)) env fuel 0 env.ticket0 = some false ∧
    q2 = { q with head := u64 (q.head + 1) } := by
  simp only [Dequeue] at hrun
  split at hrun
  · exact absurd hrun (by simp)
  · rename_i hw
    simp only [Option.some.injEq, Prod.mk.injEq, DeqResult.aborted.injEq] at hrun
    obtain ⟨hh, hq⟩ := hrun
    exact ⟨hh.symm, hw, hq.symm⟩
  · rename_i hw
    split at hrun
    · exact absurd hrun (by simp)
    · exact absurd hrun (by simp)

theorem not_isPow2_zero : ¬ IsPow2 0 := by
  rintro ⟨k, hk⟩
  have : 0 < 2 ^ k := Nat.pos_pow_of_pos k (by norm_num)
  omega

/-! ### Claim theorems -/

/-- C1: the claim says a dequeue whose wait loop observes the finish
flag returns `false` exactly when its reservation `h` satisfies
`h ≥ tail`, and keeps waiting whenever `h < tail`.  The code instead
compares `required_ticket = h + 1` with `tail`, so it also aborts when
`h = tail - 1`, a reservation some producer has already taken.  This
theorem evaluates the embedded code at the failing input: capacity 1,
reservation `h = 0`, finish flag observed set, seq-cst `tail` observed
as `1` — the claim (and the spec's own rationale, "no producer has
reserved this slot") requires the consumer to keep waiting since
`0 < 1`, but `Dequeue` aborts and returns `false`. -/
theorem claim1_shutdown_abort_off_by_one :
    Dequeue (BoundedQueue.mk [Slot.mk 0 (0 : Nat)] 0 true 0 1)
      (WaitEnv.mk 0 (fun _ => 0) (fun _ => true) (fun _ => 1)) 1
      = some (0, DeqResult.aborted (BoundedQueue.mk [Slot.mk 0 0] 0 true 1 1)) ∧
    (0 : Nat) < (fun _ => 1 : Nat → Nat) 0 :=
  ⟨rfl, Nat.zero_lt_one⟩

/-- C2: a returning enqueue takes its reservation `t` from the
fetch-add on `tail` (so the new `tail` is `t + 1` in 64-bit
arithmetic), leaves `head` and the finish flag alone, exits its wait
loop only on observing a ticket equal to the low 32 bits of `t`, and
updates slot `ring[t & mask]` to hold the value and the published
ticket, the low 32 bits of `t + 1` (stored through `store_and_wake`). -/
theorem claim2_enqueue_steps {α : Type} (q : BoundedQueue α) (v : α) (env : WaitEnv)
    (fuel t : Nat) (q2 : BoundedQueue α) (hrun : Enqueue q v env fuel = some (t, q2)) :
    t = q.tail ∧
    q2.tail = u64 (q.tail + 1) ∧
    q2.head = q.head ∧
    q2.finish = q.finish ∧
    q2.mask = q.mask ∧
    (env.ticket0 = u32 t ∨ ∃ j, env.ticketNext j = u32 t) ∧
    ∃ slot, q.ring[t &&& q.mask]? = some slot ∧
      q2.ring = q.ring.set (t &&& q.mask) (wakeHead (Slot.mk slot.ticket v) (t + 1)) := by
  obtain ⟨ht, hw, slot, hs, hq⟩ := Enqueue_eq_some hrun
  subst ht
  subst hq
  refine ⟨rfl, rfl, rfl, rfl, rfl, ?_, slot, hs, ?_⟩
  · exact waitTail_exit_match q.tail env fuel 0 env.ticket0 hw
  · rw [wakeHead_u64]

/-- C3: a dequeue that returns `true` takes its reservation `h` from
the fetch-add on `head` (so the new `head` is `h + 1` in 64-bit
arithmetic), leaves `tail` and the finish flag alone, exits its wait
loop only on observing a ticket equal to the low 32 bits of `h + 1`,
moves the value out of slot `ring[h & mask]`, and publishes through
`store_and_wake` the ticket `h + mask + 1 = h + N` truncated to 32
bits, the slot's empty-and-waiting value for the next wrap. -/
theorem claim3_dequeue_success_steps {α : Type} (q : BoundedQueue α) (env : WaitEnv)
    (fuel h : Nat) (v : α) (q2 : BoundedQueue α)
    (hrun : Dequeue q env fuel = some (h, DeqResult.success v q2)) :
    h = q.head ∧
    q2.head = u64 (q.head + 1) ∧
    q2.tail = q.tail ∧
    q2.finish = q.finish ∧
    (env.ticket0 = u32 (h + 1) ∨ ∃ j, env.ticketNext j = u32 (h + 1)) ∧
    ∃ slot, q.ring[h &&& q.mask]? = some slot ∧ v = slot.value ∧
      q2.ring = q.ring.set (h &&& q.mask) (wakeTail slot (h + q.mask + 1)) := by
  obtain ⟨hh, hw, slot, hs, hv, hq⟩ := Dequeue_eq_some_success hrun
  subst hh
  subst hq
  refine ⟨rfl, rfl, rfl, rfl, ?_, slot, hs, hv, ?_⟩
  · have := waitHead_true_match (u64 (q.head + 1)) env fuel 0 env.ticket0 hw
    rwa [u32_u64] at this
  · rw [wakeTail_u64]

/-- C4: with `size` a `std::uint32_t`, the constructor throws
`std::invalid_argument` exactly when the capacity is zero or not a
power of two, throws `std::bad_alloc` exactly when the capacity is
valid but the aligned allocation fails, and succeeds exactly when the
capacity is valid and the allocation succeeds. -/
theorem claim4_ctor_error_cases {α : Type} (dflt : α) (size : Nat) (allocOk : Bool)
    (h32 : size < U32LIM) :
    (mkBoundedQueue dflt size allocOk = Except.error CtorError.invalidArgument ↔
      (size = 0 ∨ ¬ IsPow2 size)) ∧
    (mkBoundedQueue dflt size allocOk = Except.error CtorError.badAlloc ↔
      (IsPow2 size ∧ allocOk = false)) ∧
    ((∃ q, mkBoundedQueue dflt size allocOk = Except.ok q) ↔
      (IsPow2 size ∧ allocOk = true)) := by
  rcases Nat.eq_zero_or_pos size with rfl | hpos
  · refine ⟨?_, ?_, ?_⟩ <;> simp [mkBoundedQueue, not_isPow2_zero]
  · have hmask := mask_eq_sub_one hpos h32
    by_cases hp : IsPow2 size
    · have hland : size &&& (size - 1) = 0 := (land_pred_eq_zero_iff hpos).mpr hp
      cases allocOk with
      | false =>
        refine ⟨?_, ?_, ?_⟩ <;> simp [mkBoundedQueue, hmask, hland, hp, hpos.ne']
      | true =>
        refine ⟨?_, ?_, ?_⟩ <;> simp [mkBoundedQueue, hmask, hland, hp, hpos.ne']
    · have hland : size &&& (size - 1) ≠ 0 := fun hz => hp ((land_pred_eq_zero_iff hpos).mp hz)
      refine ⟨?_, ?_, ?_⟩ <;> simp [mkBoundedQueue, hmask, hland, hp, hpos.ne']

/-- Witness for C4 at the concrete valid capacity 4 with a successful
allocation. -/
theorem claim4_witness :
    (mkBoundedQueue (0 : Nat) 4 true = Except.error CtorError.invalidArgument ↔
      ((4 : Nat) = 0 ∨ ¬ IsPow2 4)) ∧
    (mkBoundedQueue (0 : Nat) 4 true = Except.error CtorError.badAlloc ↔
      (IsPow2 4 ∧ true = false)) ∧
    ((∃ q, mkBoundedQueue (0 : Nat) 4 true = Except.ok q) ↔
      (IsPow2 4 ∧ true = true)) :=
  claim4_ctor_error_cases 0 4 true (by norm_num [U32LIM])

/-- Witness for C2: `sampleEmptyQ.Enqueue 7` with reservation 0. -/
theorem claim2_witness :
    (0 : Nat) = sampleEmptyQ.tail ∧
    sampleEnqResultQ.tail = u64 (sampleEmptyQ.tail + 1) ∧
    sampleEnqResultQ.head = sampleEmptyQ.head ∧
    sampleEnqResultQ.finish = sampleEmptyQ.finish ∧
    sampleEnqResultQ.mask = sampleEmptyQ.mask ∧
    (sampleEnvMatch0.ticket0 = u32 0 ∨ ∃ j, sampleEnvMatch0.ticketNext j = u32 0) ∧
    ∃ slot, sampleEmptyQ.ring[0 &&& sampleEmptyQ.mask]? = some slot ∧
      sampleEnqResultQ.ring = sampleEmptyQ.ring.set (0 &&& sampleEmptyQ.mask)
        (wakeHead (Slot.mk slot.ticket 7) (0 + 1)) :=
  claim2_enqueue_steps sampleEmptyQ 7 sampleEnvMatch0 1 0 sampleEnqResultQ (by rfl)

/-- Witness for C3: a successful `Dequeue` on `sampleFullQ`. -/
theorem claim3_witness :
    (0 : Nat) = sampleFullQ.head ∧
    sampleDeqSuccQ.head = u64 (sampleFullQ.head + 1) ∧
    sampleDeqSuccQ.tail = sampleFullQ.tail ∧
    sampleDeqSuccQ.finish = sampleFullQ.finish ∧
    (sampleEnvMatch1.ticket0 = u32 (0 + 1) ∨ ∃ j, sampleEnvMatch1.ticketNext j = u32 (0 + 1)) ∧
    ∃ slot, sampleFullQ.ring[0 &&& sampleFullQ.mask]? = some slot ∧ 42 = slot.value ∧
      sampleDeqSuccQ.ring = sampleFullQ.ring.set (0 &&& sampleFullQ.mask)
        (wakeTail slot (0 + sampleFullQ.mask + 1)) :=
  claim3_dequeue_success_steps sampleFullQ sampleEnvMatch1 1 0 42 sampleDeqSuccQ (by rfl)

/-- C5: the published tickets and the wait-loop exit test only depend
on the low 32 bits of the 64-bit reservation: the exit test compares
the observed ticket against the truncation `r % 2^32`, and shifting a
reservation by `2^32` (one full wrap of the 32-bit ticket) changes
neither the exit test, nor the producer wait loop, nor the tickets
published by `store_and_wake`. -/
theorem claim5_ticket_truncation {α : Type} (slot : Slot α) :
    (∀ cur r, ticketMatches cur r = (cur == u32 r)) ∧
    (∀ cur r, ticketMatches cur (r + U32LIM) = ticketMatches cur r) ∧
    (∀ r env fuel k cur, waitTail (r + U32LIM) env fuel k cur = waitTail r env fuel k cur) ∧
    (∀ r, wakeHead slot (r + 1 + U32LIM) = wakeHead slot (r + 1)) ∧
    (∀ r, wakeTail slot (r + U32LIM) = wakeTail slot r) := by
  have htm : ∀ cur r, ticketMatches cur (r + U32LIM) = ticketMatches cur r := by
    intro cur r
    simp [ticketMatches, u32, Nat.add_mod_right]
  refine ⟨fun cur r => rfl, htm, ?_, ?_, ?_⟩
  · intro r env fuel
    induction fuel with
    | zero => intro k cur; rfl
    | succ n ih =>
      intro k cur
      rw [waitTail, waitTail, htm, ih]
  · intro r
    simp [wakeHead, u32, Nat.add_mod_right]
  · intro r
    simp [wakeTail, u32, Nat.add_mod_right]

/-- Witness for C5 at concrete tickets and reservations. -/
theorem claim5_witness :
    ticketMatches 3 (7 + U32LIM) = ticketMatches 3 7 ∧
    wakeHead (Slot.mk 0 (0 : Nat)) (7 + 1 + U32LIM) = wakeHead (Slot.mk 0 0) (7 + 1) ∧
    wakeTail (Slot.mk 0 (0 : Nat)) (7 + U32LIM) = wakeTail (Slot.mk 0 0) 7 :=
  ⟨(claim5_ticket_truncation (Slot.mk 0 (0 : Nat))).2.1 3 7,
   (claim5_ticket_truncation (Slot.mk 0 (0 : Nat))).2.2.2.1 7,
   (claim5_ticket_truncation (Slot.mk 0 (0 : Nat))).2.2.2.2 7⟩

/-- C6: a dequeue aborted by shutdown returns `false` and leaves the
ring — every slot ticket and every stored value — exactly as it found
it; only the `head` counter (already advanced by the fetch-add) and
nothing else changed, and the abort happened from an iteration that
observed the finish flag and a `tail` bound. -/
theorem claim6_abort_frame {α : Type} (q : BoundedQueue α) (env : WaitEnv)
    (fuel h : Nat) (q2 : BoundedQueue α)
    (hrun : Dequeue q env fuel = some (h, DeqResult.aborted q2)) :
    q2.ring = q.ring ∧
    q2.tail = q.tail ∧
    q2.finish = q.finish ∧
    q2.mask = q.mask ∧
    h = q.head ∧
    q2.head = u64 (q.head + 1) ∧
    ∃ j, env.finishObs j = true ∧ env.tailObs j ≤ u64 (h + 1) := by
  obtain ⟨hh, hw, hq⟩ := Dequeue_eq_some_aborted hrun
  subst hh
  subst hq
  exact ⟨rfl, rfl, rfl, rfl, rfl, rfl,
    waitHead_false_shutdown (u64 (q.head + 1)) env fuel 0 env.ticket0 hw⟩

/-- Witness for C6: the aborted `Dequeue` on `sampleFinishQ`. -/
theorem claim6_witness :
    sampleAbortQ.ring = sampleFinishQ.ring ∧
    sampleAbortQ.tail = sampleFinishQ.tail ∧
    sampleAbortQ.finish = sampleFinishQ.finish ∧
    sampleAbortQ.mask = sampleFinishQ.mask ∧
    (0 : Nat) = sampleFinishQ.head ∧
    sampleAbortQ.head = u64 (sampleFinishQ.head + 1) ∧
    ∃ j, sampleEnvAbort.finishObs j = true ∧ sampleEnvAbort.tailObs j ≤ u64 (0 + 1) :=
  claim6_abort_frame sampleFinishQ sampleEnvAbort 1 0 sampleAbortQ (by rfl)

/-- C7: for every valid capacity (a power of two representable in
`std::uint32_t`) construction succeeds and yields the initial state:
slot `i` carries ticket `i` for every `i < N`, `head = tail = 0`, and
the finish flag is down. -/
theorem claim7_initial_state {α : Type} (dflt : α) (size : Nat)
    (h32 : size < U32LIM) (hp : IsPow2 size) :
    mkBoundedQueue dflt size true =
      Except.ok (BoundedQueue.mk ((List.range size).map fun i => Slot.mk i dflt)
        (size - 1) false 0 0) ∧
    ∀ i, i < size →
      ((List.range size).map fun i => Slot.mk i dflt)[i]? = some (Slot.mk i dflt) := by
  have hpos : 0 < size := by
    obtain ⟨k, rfl⟩ := hp
    exact Nat.pos_pow_of_pos k (by norm_num)
  have hmask := mask_eq_sub_one hpos h32
  have hland : size &&& (size - 1) = 0 := (land_pred_eq_zero_iff hpos).mpr hp
  constructor
  · simp [mkBoundedQueue, hmask, hland, hpos.ne']
  · intro i hi
    simp [List.getElem?_map, List.getElem?_range, hi]

/-- Witness for C7 at the concrete capacity 4. -/
theorem claim7_witness :
    mkBoundedQueue (0 : Nat) 4 true =
      Except.ok (BoundedQueue.mk ((List.range 4).map fun i => Slot.mk i (0 : Nat))
        (4 - 1) false 0 0) :=
  (claim7_initial_state 0 4 (by norm_num [U32LIM]) ⟨2, rfl⟩).1

/-- C8: in the backoff overloads of both wait loops, every iteration
taken while the `waiting` flag is `false` invokes the backoff and then
a plain load (a `backoffStep`), and from the first backoff call that
returns `true` every remaining iteration is a `wait_and_load`
(`blockingWait`): the trace of any returning loop is a block of
`backoffStep`s followed by a block of `blockingWait`s, the backoff is
never invoked after the switch, and as long as the backoff keeps
returning `false` no `wait_and_load` ever happens. -/
theorem claim8_backoff_escalation :
    (∀ (required : Nat) (env : WaitEnv) (bo : Nat → Bool) (fuel k j cur : Nat)
        (tr : List WaitAction),
      waitTailB required env bo fuel k j cur false = some tr →
      ∃ a b, tr = List.replicate a WaitAction.backoffStep ++
        List.replicate b WaitAction.blockingWait) ∧
    (∀ (required : Nat) (env : WaitEnv) (bo : Nat → Bool) (fuel k j cur : Nat)
        (tr : List WaitAction),
      (∀ i, bo i = false) →
      waitTailB required env bo fuel k j cur false = some tr →
      tr = List.replicate tr.length WaitAction.backoffStep) ∧
    (∀ (required : Nat) (env : WaitEnv) (bo : Nat → Bool) (fuel k j cur : Nat)
        (res : Bool) (tr : List WaitAction),
      waitHeadB required env bo fuel k j cur false = some (res, tr) →
      ∃ a b, tr = List.replicate a WaitAction.backoffStep ++
        List.replicate b WaitAction.blockingWait) ∧
    (∀ (required : Nat) (env : WaitEnv) (bo : Nat → Bool) (fuel k j cur : Nat)
        (res : Bool) (tr : List WaitAction),
      (∀ i, bo i = false) →
      waitHeadB required env bo fuel k j cur false = some (res, tr) →
      tr = List.replicate tr.length WaitAction.backoffStep) := by
  refine ⟨?_, ?_, ?_, ?_⟩
  · intro required env bo fuel k j cur tr h
    exact waitTailB_trace_shape required env bo fuel k j cur false tr h
  · intro required env bo fuel k j cur tr hbo h
    exact waitTailB_all_backoff required env bo hbo fuel k j cur tr h
  · intro required env bo fuel k j cur res tr h
    exact waitHeadB_trace_shape required env bo fuel k j cur false res tr h
  · intro required env bo fuel k j cur res tr hbo h
    exact waitHeadB_all_backoff required env bo hbo fuel k j cur res tr h

/-- Witness for C8: concrete runs of both backoff loops, one whose
backoff escalates immediately and one whose backoff never escalates. -/
theorem claim8_witness :
    (∃ a b, [WaitAction.backoffStep, WaitAction.blockingWait] =
      List.replicate a WaitAction.backoffStep ++
      List.replicate b WaitAction.blockingWait) ∧
    ([WaitAction.backoffStep] =
      List.replicate ([WaitAction.backoffStep] : List WaitAction).length
        WaitAction.backoffStep) ∧
    (∃ a b, [WaitAction.backoffStep, WaitAction.blockingWait] =
      List.replicate a WaitAction.backoffStep ++
      List.replicate b WaitAction.blockingWait) ∧
    ([WaitAction.backoffStep] =
      List.replicate ([WaitAction.backoffStep] : List WaitAction).length
        WaitAction.backoffStep) :=
  ⟨claim8_backoff_escalation.1 5 sampleEnvEsc (fun _ => true) 3 0 0 0
      [WaitAction.backoffStep, WaitAction.blockingWait] (by rfl),
   claim8_backoff_escalation.2.1 5 sampleEnvTick5 (fun _ => false) 2 0 0 0
      [WaitAction.backoffStep] (fun _ => rfl) (by rfl),
   claim8_backoff_escalation.2.2.1 5 sampleEnvEsc (fun _ => true) 3 0 0 0 true
      [WaitAction.backoffStep, WaitAction.blockingWait] (by rfl),
   claim8_backoff_escalation.2.2.2 5 sampleEnvTick5 (fun _ => false) 2 0 0 0 true
      [WaitAction.backoffStep] (fun _ => rfl) (by rfl)⟩

/-- C9: `Finish` stores `true` to the finish flag and then calls
`Wake()` on each of the `N = mask + 1` slots, in index order, with the
flag store strictly first in the action trace; afterwards `Finished`
reports `true`; and no queue operation — enqueue, dequeue (either
outcome) or another finish — ever brings the flag back to `false`. -/
theorem claim9_finish_protocol {α : Type} (q : BoundedQueue α)
    (hlen : q.ring.length = q.mask + 1) (h32 : q.mask + 1 < U32LIM) :
    (Finish q).1.finish = true ∧
    Finished (Finish q).1 = true ∧
    (Finish q).2 = FinishAction.setFlag ::
      (List.range q.ring.length).map FinishAction.wakeSlot ∧
    (∀ i, i < q.ring.length → FinishAction.wakeSlot i ∈ (Finish q).2) ∧
    (∀ (p : BoundedQueue α) (v : α) (env : WaitEnv) (fuel t : Nat) (p2 : BoundedQueue α),
      p.finish = true → Enqueue p v env fuel = some (t, p2) → p2.finish = true) ∧
    (∀ (p : BoundedQueue α) (env : WaitEnv) (fuel h : Nat) (r : DeqResult α),
      p.finish = true → Dequeue p env fuel = some (h, r) → (DeqResult.state r).finish = true) ∧
    (∀ p : BoundedQueue α, ((Finish p).1).finish = true) := by
  have hu : u32 (q.mask + 1) = q.mask + 1 := by
    simpa [u32] using Nat.mod_eq_of_lt h32
  refine ⟨rfl, rfl, ?_, ?_, ?_, ?_, fun p => rfl⟩
  · simp [Finish, hu, hlen]
  · intro i hi
    simp only [Finish, hu]
    exact List.mem_cons_of_mem _ (List.mem_map_of_mem _ (List.mem_range.mpr (hlen ▸ hi)))
  · intro p v env fuel t p2 hf hrun
    obtain ⟨_, _, slot, _, hq⟩ := Enqueue_eq_some hrun
    subst hq
    exact hf
  · intro p env fuel h r hf hrun
    cases r with
    | success v p2 =>
      obtain ⟨_, _, slot, _, _, hq⟩ := Dequeue_eq_some_success hrun
      subst hq
      exact hf
    | aborted p2 =>
      obtain ⟨_, _, hq⟩ := Dequeue_eq_some_aborted hrun
      subst hq
      exact hf

/-- Witness for C9: the finish trace of the concrete capacity-2 queue. -/
theorem claim9_witness :
    (Finish sampleTwoSlotQ).2 = FinishAction.setFlag ::
      (List.range sampleTwoSlotQ.ring.length).map FinishAction.wakeSlot :=
  (claim9_finish_protocol sampleTwoSlotQ (by rfl) (by decide)).2.2.1

/-- C10: the move constructor hands the ring pointer and mask to the
new object and nulls the source's ring pointer, but carries over none
of `head`, `tail` or the finish flag — the moved-to queue always starts
at `head = tail = 0` with the flag down, whatever state (undequeued
values, raised flag) the source held — and destroying the moved-from
object runs no slot destructor and frees nothing. -/
theorem claim10_move_semantics {α : Type} (o : QueueRepr α) :
    (moveCtor o).1.ring = o.ring ∧
    (moveCtor o).1.mask = o.mask ∧
    (moveCtor o).1.head = 0 ∧
    (moveCtor o).1.tail = 0 ∧
    (moveCtor o).1.finish = false ∧
    (moveCtor o).2.ring = none ∧
    (moveCtor o).2.mask = o.mask ∧
    (moveCtor o).2.head = o.head ∧
    (moveCtor o).2.tail = o.tail ∧
    (moveCtor o).2.finish = o.finish ∧
    destroyActions (moveCtor o).2 = [] := by
  refine ⟨rfl, rfl, rfl, rfl, rfl, rfl, rfl, rfl, rfl, rfl, rfl⟩

/-- Witness for C10: moving from `sampleRepr`, which holds an
undequeued value, nonzero counters and a raised finish flag. -/
theorem claim10_witness :
    (moveCtor sampleRepr).1.ring = sampleRepr.ring ∧
    (moveCtor sampleRepr).1.mask = sampleRepr.mask ∧
    (moveCtor sampleRepr).1.head = 0 ∧
    (moveCtor sampleRepr).1.tail = 0 ∧
    (moveCtor sampleRepr).1.finish = false ∧
    (moveCtor sampleRepr).2.ring = none ∧
    (moveCtor sampleRepr).2.mask = sampleRepr.mask ∧
    (moveCtor sampleRepr).2.head = sampleRepr.head ∧
    (moveCtor sampleRepr).2.tail = sampleRepr.tail ∧
    (moveCtor sampleRepr).2.finish = sampleRepr.finish ∧
    destroyActions (moveCtor sampleRepr).2 = [] :=
  claim10_move_semantics sampleRepr

end Evenk
